import Mathlib

set_option maxRecDepth 100000

/-!
Shallow embedding of the station-series tolerance-evaluation and
diagram-rendering engine of `src/app.js` (crane-runway TR-13 checker).

JavaScript numbers are modelled as `ℚ` (all inputs of interest are finite
decimals; no claim concerns float rounding).  Arrays become `List ℚ`,
`null`/absent values become `Option`, and a thrown `Error` becomes
`Except.error`.  Each definition names and mirrors the `app.js` function it
embeds; comments cite the source lines.
-/

namespace TR13

/-! ### Correction-amount formatter (`nearestFractionStringInches`, app.js:127-154) -/

/-- The fixed 18-entry fraction lookup table `fracMap` (app.js:129-148). -/
def fracMap : List (ℚ × String) :=
  [ (0, "0\""),
    (0.0625, "1/16\""),
    (0.125, "1/8\""),
    (0.1875, "3/16\""),
    (0.25, "1/4\""),
    (0.3125, "5/16\""),
    (0.375, "3/8\""),
    (0.4375, "7/16\""),
    (0.5, "1/2\""),
    (0.625, "5/8\""),
    (0.75, "3/4\""),
    (0.875, "7/8\""),
    (1.0, "1\""),
    (1.125, "1 1/8\""),
    (1.25, "1 1/4\""),
    (1.5, "1 1/2\""),
    (2.0, "2\""),
    (3.0, "3\"") ]

/-- One iteration of the `for (const f of fracMap)` loop (app.js:150-152):
keep `best` unless the candidate's distance to `abs` is strictly smaller. -/
def nearestFracStep (a : ℚ) (best f : ℚ × String) : ℚ × String :=
  if |f.1 - a| < |best.1 - a| then f else best

/-- `nearestFractionStringInches(valueIn)` (app.js:127-154): start from
`fracMap[0]`, scan the whole table, return the label of the best entry. -/
def nearestFractionStringInches (valueIn : ℚ) : String :=
  let a := |valueIn|
  (fracMap.foldl (nearestFracStep a) (fracMap.headD (0, "0\""))).2

/-! ### Tolerance model (`tolAt` app.js:1397-1401, `tolAtStation` app.js:1886-1894) -/

/-- A tolerance zone `{startFt, endFt, tolIn}` as parsed by `parseZones`. -/
structure Zone where
  startFt : ℚ
  endFt : ℚ
  tolIn : ℚ
deriving DecidableEq, Repr

/-- The zone-membership test `ft >= z.startFt && ft <= z.endFt`
(app.js:1399 and app.js:1890). -/
def zoneContains (ft : ℚ) (z : Zone) : Bool :=
  z.startFt ≤ ft && ft ≤ z.endFt

/-- `tolAt(ft, zones, fallbackTol)` (app.js:1397-1401).  `zones` is `null`
(`none`) when `parseZones` found no valid line; otherwise the first zone
containing `ft` wins and the caller-supplied `fallbackTol` is the fallback. -/
def tolAt (ft : ℚ) (zones : Option (List Zone)) (fallbackTol : ℚ) : ℚ :=
  match zones with
  | none => fallbackTol
  | some zs =>
    match zs.find? (zoneContains ft) with
    | some z => z.tolIn
    | none => fallbackTol

/-- The `tolWindow` argument of `buildChartSvg` (app.js:1871):
`null`, `{type:"constant", tolIn}`, or `{type:"zones", zones}`. -/
inductive TolWindow where
  | null
  | const (tolIn : ℚ)
  | zoned (zones : List Zone)
deriving DecidableEq, Repr

/-- `tolAtStation(ft)` nested in `buildChartSvg` (app.js:1886-1894): first
matching zone wins; with no match the LAST zone's tolerance is returned
(`tolWindow.zones[tolWindow.zones.length - 1]?.tolIn ?? 0`), `0` when the
zone list is empty. -/
def tolAtStation (tolWindow : TolWindow) (ft : ℚ) : ℚ :=
  match tolWindow with
  | .null => 0
  | .const tolIn => tolIn
  | .zoned zones =>
    match zones.find? (zoneContains ft) with
    | some z => z.tolIn
    | none => ((zones.getLast?).map Zone.tolIn).getD 0

/-! ### Per-point pass decisions (app.js:2003-2004 and app.js:1696) -/

/-- The survey magnitude pass `Math.abs(value) <= tol` (app.js:2003-2004,
`nMagPass`/`sMagPass` in `evaluateAndRenderSurvey`). -/
def surveyMagPass (value tol : ℚ) : Bool :=
  |value| ≤ tol

/-- The diagram fail/highlight decision `Math.abs(p.valueIn) > tol`
(app.js:1696, `fails` in `buildCrossLevelDiagramSvgString`). -/
def crossLevelFail (valueIn tol : ℚ) : Bool :=
  |valueIn| > tol

/-! ### Chart Y-range (app.js:2028-2029; same formula at app.js:870-874) -/

/-- `seriesMaxAbs(y)` (app.js:682-686): running maximum of `Math.abs(v)`
starting from `0`. -/
def seriesMaxAbs (y : List ℚ) : ℚ :=
  y.foldl (fun m v => max m |v|) 0

/-- `maxDev = Math.max(seriesMaxAbs(railN), seriesMaxAbs(railS), tol)`
(app.js:2028). -/
def straightnessMaxDev (railN railS : List ℚ) (tol : ℚ) : ℚ :=
  max (max (seriesMaxAbs railN) (seriesMaxAbs railS)) tol

/-- `yAbsMax = (maxDev * 1.25) || 1` (app.js:2029).  JavaScript `x || 1`
yields `1` exactly when `x` is falsy, i.e. (over the `ℚ` domain) when the
product is `0`. -/
def straightnessYAbsMax (railN railS : List ℚ) (tol : ℚ) : ℚ :=
  let p := straightnessMaxDev railN railS tol * 1.25
  if p = 0 then 1 else p

/-! ### Station grid builder (`stationOffsets`, app.js:188-192) -/

/-- The value of the loop variable `offset` of `stationOffsets` after `n`
iterations: it starts at `0` and each iteration adds `stationDistanceFt`
(app.js:190). -/
def stationLoopOffset (stationDistanceFt : ℚ) : ℕ → ℚ
  | 0 => 0
  | n + 1 => stationLoopOffset stationDistanceFt n + stationDistanceFt

/-- The loop of `stationOffsets` terminates: some iterate fails the
condition `offset < designDistanceFt` (app.js:190). -/
def stationLoopExits (designDistanceFt stationDistanceFt : ℚ) : Prop :=
  ∃ n, ¬ stationLoopOffset stationDistanceFt n < designDistanceFt

/-- Fuel-indexed unfolding of the `stationOffsets` loop body
`for (let offset = 0; offset < designDistanceFt; offset += stationDistanceFt)
offsets.push(offset)` (app.js:190). -/
def stationOffsetsAux (designDistanceFt stationDistanceFt : ℚ) : ℚ → ℕ → List ℚ
  | _, 0 => []
  | offset, n + 1 =>
    if offset < designDistanceFt then
      offset :: stationOffsetsAux designDistanceFt stationDistanceFt
        (offset + stationDistanceFt) n
    else []

/-- `stationOffsets(designDistanceFt, stationDistanceFt)` (app.js:188-192).
The fuel `⌈design/spacing⌉ + 1` dominates the number of loop iterations
whenever `0 < stationDistanceFt`; for `stationDistanceFt ≤ 0` with positive
length the JavaScript loop never exits (see `stationLoopExits`), so the
function value is only meaningful outside that region. -/
def stationOffsets (designDistanceFt stationDistanceFt : ℚ) : List ℚ :=
  stationOffsetsAux designDistanceFt stationDistanceFt 0
    ((⌈designDistanceFt / stationDistanceFt⌉).toNat + 1)

/-- The guard of `buildLayout` (app.js:205-212): `columns < 2` or
`measuredStationDistance <= 0` aborts with a status message before any call
to `stationOffsets`. -/
def buildLayoutCheck (columns measuredStationDistance : ℚ) : Except String Unit :=
  if columns < 2 ∨ measuredStationDistance ≤ 0 then
    .error "Columns per side must be 2+ and measured station distance must be greater than 0."
  else .ok ()

/-! ### Survey station table (`buildSurveyStations`, app.js:1782-1827) -/

/-- `Number(ft.toFixed(3))` (app.js:1802): round to the nearest multiple of
`1/1000`, ties toward the larger value, matching `toFixed`'s
pick-the-larger-`n` tie rule. -/
def surveyRound3 (q : ℚ) : ℚ :=
  (⌊q * 1000 + 1 / 2⌋ : ℚ) / 1000

/-- Fuel-indexed unfolding of the station loop of `buildSurveyStations`
`for (let ft = startFt; ft <= startFt + lenFt + 1e-9; ft += stepFt)
stations.push(Number(ft.toFixed(3)))` (app.js:1802).  The loop variable is
the raw `ft`; only the pushed copy is rounded. -/
def surveyStationsAux (startFt lenFt stepFt : ℚ) : ℚ → ℕ → List ℚ
  | _, 0 => []
  | ft, n + 1 =>
    if ft ≤ startFt + lenFt + 1 / 1000000000 then
      surveyRound3 ft :: surveyStationsAux startFt lenFt stepFt (ft + stepFt) n
    else []

/-- The station list built by `buildSurveyStations` (app.js:1801-1802),
after its guard `lenFt <= 0 || stepFt <= 0` (app.js:1790) has passed.  The
fuel `⌈(lenFt + 1)/stepFt⌉ + 2` dominates the iteration count whenever
`0 < stepFt` (the epsilon `1e-9` is below `1`). -/
def surveyStations (startFt lenFt stepFt : ℚ) : List ℚ :=
  surveyStationsAux startFt lenFt stepFt startFt
    ((⌈(lenFt + 1) / stepFt⌉).toNat + 2)

/-- The guard of `buildSurveyStations` (app.js:1790-1793): non-positive
length or spacing aborts with a status message before the loop runs. -/
def buildSurveyStationsCheck (lenFt stepFt : ℚ) : Except String Unit :=
  if lenFt ≤ 0 ∨ stepFt ≤ 0 then
    .error "Enter a valid runway length and station spacing."
  else .ok ()

/-! ### Rate of change (`rateOfChangePer20ft`, app.js:688-718) -/

/-- Array read `arr[i]` on the parallel series arrays; the claims only
concern indices below the common length, where the default is unused. -/
def seriesGet (l : List ℚ) (i : ℕ) : ℚ :=
  l.getD i 0

/-- `dx = Math.abs(stationFt[i] - stationFt[j])` (app.js:698). -/
def sepFt (stationFt : List ℚ) (i j : ℕ) : ℚ :=
  |seriesGet stationFt i - seriesGet stationFt j|

/-- `diffTo20 = Math.abs(dx - 20)` (app.js:700). -/
def diffTo20 (stationFt : List ℚ) (i j : ℕ) : ℚ :=
  |sepFt stationFt i j - 20|

/-- Candidacy of `j` as a neighbor of `i`: not `i` itself and at nonzero
separation (the `j === i` and `dx <= 0` `continue`s, app.js:697-699). -/
def validNeighbor (stationFt : List ℚ) (i j : ℕ) : Prop :=
  j ≠ i ∧ 0 < sepFt stationFt i j

instance (stationFt : List ℚ) (i j : ℕ) :
    Decidable (validNeighbor stationFt i j) := by
  unfold validNeighbor; infer_instance

/-- One iteration of the inner `j` loop of `rateOfChangePer20ft`
(app.js:696-705).  The running state is `none` for `bestJ === -1`
(`bestDx === Infinity`, so any finite `diffTo20` would win) and
`some (bestJ, bestDx)` afterwards. -/
def bestStep (stationFt : List ℚ) (i : ℕ) (st : Option (ℕ × ℚ)) (j : ℕ) :
    Option (ℕ × ℚ) :=
  if j = i then st
  else if sepFt stationFt i j ≤ 0 then st
  else
    match st with
    | none => some (j, diffTo20 stationFt i j)
    | some (bestJ, bestDx) =>
      if diffTo20 stationFt i j < bestDx then some (j, diffTo20 stationFt i j)
      else some (bestJ, bestDx)

/-- The inner `j` loop of `rateOfChangePer20ft` over `j = 0, …, n-1`
(app.js:693-705). -/
def bestNeighbor (stationFt : List ℚ) (n i : ℕ) : Option (ℕ × ℚ) :=
  (List.range n).foldl (bestStep stationFt i) none

/-- `rateOfChangePer20ft(stationFt, y)` (app.js:688-718): per point `i`,
either no valid neighbor (`bestJ === -1`, push `0`) or
`|y[i] - y[bestJ]| * (20 / dx)` for the found `bestJ`. -/
def rateOfChangePer20ft (stationFt y : List ℚ) : List ℚ :=
  (List.range y.length).map fun i =>
    match bestNeighbor stationFt y.length i with
    | none => 0
    | some (bestJ, _) =>
      |seriesGet y i - seriesGet y bestJ| * (20 / sepFt stationFt i bestJ)

/-- Loop invariant of the inner `j` scan of `rateOfChangePer20ft` after the
first `m` candidates: no state means no valid candidate seen; a state
`(b, d)` means `b` is the first-encountered valid candidate minimizing
`diffTo20` among `j < m` and `d` is its `diffTo20`. -/
def BestInv (stationFt : List ℚ) (i m : ℕ) : Option (ℕ × ℚ) → Prop
  | none => ∀ j, j < m → ¬ validNeighbor stationFt i j
  | some (b, d) =>
    b < m ∧ validNeighbor stationFt i b ∧ d = diffTo20 stationFt i b ∧
      (∀ j, j < m → validNeighbor stationFt i j →
        diffTo20 stationFt i b ≤ diffTo20 stationFt i j) ∧
      (∀ j, j < b → validNeighbor stationFt i j →
        diffTo20 stationFt i b < diffTo20 stationFt i j)

/-! ### CSV survey import (`parseSurveyDataFromTextarea`, app.js:592-656)

The CSV text split into headered rows is outside the core (spec §1); the
model starts from the per-row numeric-parse attempts: a cell is `some q`
when `toNum` produced a finite number and `none` when it produced `NaN`
(app.js:622-626).  The required-header check (app.js:608-610) has already
passed, encoded by the `hasBeamN`/`hasBeamS` flags for the two optional
columns. -/

/-- A CSV data row after the per-cell numeric-parse attempt. -/
structure SurveyRawRow where
  stationFt : Option ℚ
  railN : Option ℚ
  railS : Option ℚ
  beamN : Option ℚ
  beamS : Option ℚ
deriving DecidableEq, Repr

/-- A row that survived the required-column parse filter (app.js:626-633).
`beamN`/`beamS` are `null` (`none`) when the optional column is absent and
`toNum(cell, 0)` of the cell otherwise. -/
structure SurveyValidRow where
  stationFt : ℚ
  railN : ℚ
  railS : ℚ
  beamN : Option ℚ
  beamS : Option ℚ
deriving DecidableEq, Repr

/-- The body of the row loop (app.js:621-634): a row is kept exactly when
station and both required rail cells parsed to finite numbers. -/
def surveyValidRow (hasBeamN hasBeamS : Bool) (r : SurveyRawRow) :
    Option SurveyValidRow :=
  match r.stationFt, r.railN, r.railS with
  | some st, some rn, some rs =>
    some { stationFt := st, railN := rn, railS := rs,
           beamN := if hasBeamN then some (r.beamN.getD 0) else none,
           beamS := if hasBeamS then some (r.beamS.getD 0) else none }
  | _, _, _ => none

/-- All rows kept by the row loop, in input order. -/
def surveyValidRows (hasBeamN hasBeamS : Bool) (rows : List SurveyRawRow) :
    List SurveyValidRow :=
  rows.filterMap (surveyValidRow hasBeamN hasBeamS)

/-- The parsed survey series returned to the evaluation engine
(app.js:648-655); the parallel arrays `stationFt`, `railN`, … are the
fieldwise projections of `rows`. -/
structure SurveyData where
  rows : List SurveyValidRow
  hasBeam : Bool
deriving DecidableEq, Repr

/-- Comparison used by the station sort (app.js:641-644):
`Array.prototype.sort` with comparator `a.v - b.v` is a stable sort by the
station value (ES2019), modelled by a stable insertion sort on rows keyed
by `stationFt`. -/
def surveyRowLE (a b : SurveyValidRow) : Prop :=
  a.stationFt ≤ b.stationFt

instance : DecidableRel surveyRowLE := by
  unfold surveyRowLE; infer_instance

instance : IsTotal SurveyValidRow surveyRowLE :=
  ⟨fun a b => le_total a.stationFt b.stationFt⟩

instance : IsTrans SurveyValidRow surveyRowLE :=
  ⟨fun _ _ _ h h' => le_trans h h'⟩

/-- `parseSurveyDataFromTextarea` (app.js:592-656) from the filtered rows:
fewer than 2 valid rows throws (app.js:636-638); otherwise the valid rows
are reordered ascending by station and returned. -/
def parseSurveyDataFromTextarea (hasBeamN hasBeamS : Bool)
    (rows : List SurveyRawRow) : Except String SurveyData :=
  let valid := surveyValidRows hasBeamN hasBeamS rows
  if valid.length < 2 then
    .error "Not enough valid rows parsed. Need at least 2 stations."
  else
    .ok { rows := List.insertionSort surveyRowLE valid,
          hasBeam := hasBeamN && hasBeamS }

/-! ### Renderer guards (`buildCrossLevelDiagramSvgString` app.js:1677-1778,
`buildEccentricityChart` app.js:909-958, `buildChartSvg` app.js:1863-1894) -/

/-- `escHtml(s)` (app.js:118-120). -/
def escHtml (s : String) : String :=
  ((((s.replace "&" "&amp;").replace "<" "&lt;").replace ">" "&gt;").replace
    "\"" "&quot;")

/-- `emptySvg(msg)` (app.js:960-965): the placeholder SVG document wrapping
the explanatory message. -/
def emptySvg (msg : String) : String :=
  "<svg xmlns=\"http://www.w3.org/2000/svg\" width=\"1100\" height=\"360\" viewBox=\"0 0 1100 360\">\n    <rect x=\"0\" y=\"0\" width=\"1100\" height=\"360\" fill=\"white\"/>\n    <text x=\"40\" y=\"60\" font-family=\"Arial\" font-size=\"16\" font-weight=\"700\">"
    ++ escHtml msg ++ "</text>\n  </svg>"

/-- Outcome of a renderer: either the placeholder SVG document or a real
drawing, recorded by the geometric quantities the claims concern (the
literal SVG text assembly around them is elided). -/
inductive RenderResult (α : Type) where
  | placeholder (document : String)
  | rendered (value : α)
deriving DecidableEq, Repr

/-- A point of the cross-level series (app.js:1668). -/
structure CrossPt where
  stationFt : ℚ
  valueIn : ℚ
deriving DecidableEq, Repr

/-- `Math.min(...)` over a shallow-embedded nonempty list. -/
def listMin (l : List ℚ) : ℚ :=
  l.foldl min (l.headD 0)

/-- `Math.max(...)` over a shallow-embedded nonempty list. -/
def listMax (l : List ℚ) : ℚ :=
  l.foldl max (l.headD 0)

/-- The geometry computed by `buildCrossLevelDiagramSvgString`
(app.js:1684-1698): span with minimum 1, horizontal scale, per-point fail
flags. -/
structure CrossLevelGeom where
  minFt : ℚ
  maxFt : ℚ
  spanFt : ℚ
  xs : List ℚ
  fails : List Bool
deriving DecidableEq, Repr

/-- `buildCrossLevelDiagramSvgString` (app.js:1677-1698): empty series
returns the placeholder (app.js:1682); otherwise
`spanFt = Math.max(1, maxFt - minFt)` (app.js:1691),
`xForFt(ft) = marginL + ((ft - minFt) / spanFt) * plotW` (app.js:1694) with
`W = 1100, marginL = 110, marginR = 50` and
`fails = pts.map(p => Math.abs(p.valueIn) > tol)` (app.js:1696). -/
def buildCrossLevelDiagramSvgString (tol : ℚ) (pts : List CrossPt) :
    RenderResult CrossLevelGeom :=
  if pts.isEmpty then .placeholder (emptySvg "No cross-level data available.")
  else
    let minFt := listMin (pts.map (·.stationFt))
    let maxFt := listMax (pts.map (·.stationFt))
    let spanFt := max 1 (maxFt - minFt)
    let plotW : ℚ := 1100 - 110 - 50
    let xForFt := fun ft => 110 + ((ft - minFt) / spanFt) * plotW
    .rendered
      { minFt := minFt, maxFt := maxFt, spanFt := spanFt,
        xs := pts.map (fun p => xForFt p.stationFt),
        fails := pts.map (fun p => crossLevelFail p.valueIn tol) }

/-- The parsed survey series as consumed by the chart builders
(`surveyData` global, shape of app.js:648-655 / app.js:1858). -/
structure SurveyArrays where
  stationFt : List ℚ
  railN : List ℚ
  railS : List ℚ
  beamN : List (Option ℚ)
  beamS : List (Option ℚ)
deriving DecidableEq, Repr

/-- The geometry computed by `buildEccentricityChart` when it draws
(app.js:922-939). -/
structure EccGeom where
  eccN : List ℚ
  yAbsMax : ℚ
  tolWindow : TolWindow
deriving DecidableEq, Repr

/-- `buildEccentricityChart` (app.js:909-958): no survey data or no finite
beam value returns a placeholder (app.js:910, 917-920); otherwise
`eccN = railN - beamN`, `yAbsMax = max(maxDev, maxTol) * 1.25 || 1`
(app.js:923-933) and the tolerance window is zoned when zones parsed
(app.js:937-939). -/
def buildEccentricityChart (surveyData : Option SurveyArrays)
    (zones : Option (List Zone)) : RenderResult EccGeom :=
  match surveyData with
  | none => .placeholder (emptySvg "No survey data.")
  | some d =>
    if (d.beamN.any (fun v => v.isSome)) = false then
      .placeholder (emptySvg
        "Eccentricity requires BeamN/BeamS. Provide BeamN & BeamS columns in CSV.")
    else
      let eccN := (List.range d.railN.length).map fun i =>
        seriesGet d.railN i - ((d.beamN.getD i none).getD 0)
      let maxDev := seriesMaxAbs eccN
      let tolFallback : ℚ := 0.75
      let maxTol := match zones with
        | some zs => listMax (zs.map (·.tolIn))
        | none => tolFallback
      let p := max maxDev maxTol * 1.25
      let yAbsMax := if p = 0 then 1 else p
      .rendered
        { eccN := eccN, yAbsMax := yAbsMax,
          tolWindow := match zones with
            | some zs => .zoned zs
            | none => .const tolFallback }

/-- `xSpan = Math.max(1e-6, xMax - xMin)` of `buildChartSvg`
(app.js:1879-1881): the chart renderer's horizontal-span substitution. -/
def chartXSpan (stationFt : List ℚ) : ℚ :=
  max (1 / 1000000) (listMax stationFt - listMin stationFt)

/-! ## Theorems -/

/-! ### Helper lemmas -/

theorem nearestFracStep_self (a : ℚ) (b : ℚ × String) : nearestFracStep a b b = b := by
  simp [nearestFracStep]

/-- The `nearestFractionStringInches` scan returns the first element of
`b :: l` (initial best, then candidates in order) whose distance to `a` is
minimal: every element strictly before it is strictly farther, and no
element is strictly closer. -/
theorem nearestFrac_foldl_spec (a : ℚ) :
    ∀ (l : List (ℚ × String)) (b : ℚ × String),
      ∃ l₁ l₂, b :: l = l₁ ++ (l.foldl (nearestFracStep a) b) :: l₂ ∧
        (∀ f ∈ l₁, |(l.foldl (nearestFracStep a) b).1 - a| < |f.1 - a|) ∧
        (∀ f ∈ b :: l, |(l.foldl (nearestFracStep a) b).1 - a| ≤ |f.1 - a|) := by
  intro l
  induction l with
  | nil =>
    intro b
    exact ⟨[], [], rfl, by simp, by simp⟩
  | cons f t ih =>
    intro b
    rw [List.foldl_cons]
    by_cases hlt : |f.1 - a| < |b.1 - a|
    · have hstep : nearestFracStep a b f = f := by simp [nearestFracStep, hlt]
      rw [hstep]
      obtain ⟨l₁, l₂, hsplit, hstrict, hmin⟩ := ih f
      refine ⟨b :: l₁, l₂, ?_, ?_, ?_⟩
      · rw [List.cons_append, ← hsplit]
      · intro g hg
        rcases List.mem_cons.1 hg with rfl | hg
        · exact lt_of_le_of_lt (hmin f (List.mem_cons_self f t)) hlt
        · exact hstrict g hg
      · intro g hg
        rcases List.mem_cons.1 hg with rfl | hg
        · exact le_of_lt (lt_of_le_of_lt (hmin f (List.mem_cons_self f t)) hlt)
        · exact hmin g hg
    · have hstep : nearestFracStep a b f = b := by simp [nearestFracStep, hlt]
      rw [hstep]
      obtain ⟨l₁, l₂, hsplit, hstrict, hmin⟩ := ih b
      have hble : |b.1 - a| ≤ |f.1 - a| := not_lt.1 hlt
      cases l₁ with
      | nil =>
        simp only [List.nil_append] at hsplit
        obtain ⟨hb, hl₂⟩ := List.cons_eq_cons.1 hsplit
        refine ⟨[], f :: l₂, ?_, by simp, ?_⟩
        · rw [List.nil_append, ← hb, ← hl₂]
        · intro g hg
          rcases List.mem_cons.1 hg with rfl | hg
          · exact hmin g (List.mem_cons_self g t)
          · rcases List.mem_cons.1 hg with rfl | hg
            · rw [← hb]; exact hble
            · exact hmin g (List.mem_cons_of_mem b hg)
      | cons b₀ l₁' =>
        rw [List.cons_append] at hsplit
        obtain ⟨hb₀, ht⟩ := List.cons_eq_cons.1 hsplit
        have hrb : |(t.foldl (nearestFracStep a) b).1 - a| < |b.1 - a| := by
          have := hstrict b₀ (List.mem_cons_self b₀ l₁')
          rwa [← hb₀] at this
        refine ⟨b :: f :: l₁', l₂, ?_, ?_, ?_⟩
        · rw [List.cons_append, List.cons_append, ← ht]
        · intro g hg
          rcases List.mem_cons.1 hg with rfl | hg
          · exact hrb
          · rcases List.mem_cons.1 hg with rfl | hg
            · exact lt_of_lt_of_le hrb hble
            · exact hstrict g (List.mem_cons_of_mem b₀ hg)
        · intro g hg
          rcases List.mem_cons.1 hg with rfl | hg
          · exact hmin g (List.mem_cons_self g t)
          · rcases List.mem_cons.1 hg with rfl | hg
            · exact le_of_lt (lt_of_lt_of_le hrb hble)
            · exact hmin g (List.mem_cons_of_mem b hg)

/-- Variant of `nearestFrac_foldl_spec` in which the initial best is the
head of the scanned table, as in `nearestFractionStringInches`. -/
theorem nearestFrac_scan_spec (a : ℚ) (b : ℚ × String) (t : List (ℚ × String)) :
    ∃ l₁ l₂, b :: t = l₁ ++ ((b :: t).foldl (nearestFracStep a) b) :: l₂ ∧
      (∀ f ∈ l₁, |((b :: t).foldl (nearestFracStep a) b).1 - a| < |f.1 - a|) ∧
      (∀ f ∈ b :: t, |((b :: t).foldl (nearestFracStep a) b).1 - a| ≤ |f.1 - a|) := by
  have hfold : (b :: t).foldl (nearestFracStep a) b = t.foldl (nearestFracStep a) b := by
    rw [List.foldl_cons, nearestFracStep_self]
  rw [hfold]
  exact nearestFrac_foldl_spec a t b

/-- `List.find?` returns the first element satisfying the predicate. -/
theorem find?_first {α : Type} (p : α → Bool) :
    ∀ (l : List α) (z : α), l.find? p = some z →
      ∃ l₁ l₂, l = l₁ ++ z :: l₂ ∧ p z = true ∧ ∀ w ∈ l₁, p w = false := by
  intro l
  induction l with
  | nil => intro z h; simp at h
  | cons a t ih =>
    intro z h
    by_cases hp : p a = true
    · rw [List.find?_cons_of_pos _ hp] at h
      have : a = z := by injection h
      subst this
      exact ⟨[], t, rfl, hp, by simp⟩
    · have hp' : p a = false := by simpa using hp
      rw [List.find?_cons_of_neg _ (by simp [hp'])] at h
      obtain ⟨l₁, l₂, hsplit, hz, hl₁⟩ := ih z h
      refine ⟨a :: l₁, l₂, by rw [List.cons_append, ← hsplit], hz, ?_⟩
      intro w hw
      rcases List.mem_cons.1 hw with rfl | hw
      · exact hp'
      · exact hl₁ w hw

/-! ### C5 — correction-amount formatter -/

/-- C5: `nearestFractionStringInches` returns the label of the fixed
18-entry table entry closest by absolute difference to `|valueIn|`, ties
broken toward the lowest table index (strict less-than update); in
particular `0.26 ↦ "1/4\""`, `0 ↦ "0\""`, and `10` clamps to `"3\""`. -/
theorem nearestFraction_closest_first :
    fracMap.length = 18 ∧
    (∀ v : ℚ, ∃ l₁ e l₂, fracMap = l₁ ++ e :: l₂ ∧
      nearestFractionStringInches v = e.2 ∧
      (∀ f ∈ l₁, abs (e.1 - abs v) < abs (f.1 - abs v)) ∧
      (∀ f ∈ fracMap, abs (e.1 - abs v) ≤ abs (f.1 - abs v))) ∧
    nearestFractionStringInches 0.26 = "1/4\"" ∧
    nearestFractionStringInches 0 = "0\"" ∧
    nearestFractionStringInches 10 = "3\"" := by
  refine ⟨rfl, fun v => ?_, by with_unfolding_all decide, by with_unfolding_all decide, by with_unfolding_all decide⟩
  obtain ⟨l₁, l₂, hsplit, hstrict, hmin⟩ :=
    nearestFrac_scan_spec |v| (0, "0\"") fracMap.tail
  exact ⟨l₁, _, l₂, hsplit, rfl, hstrict, hmin⟩

/-! ### C2 — inclusive pass boundary -/

/-- C2: the per-point pass decision is `|value| ≤ tol` with inclusive
boundary (`0.30` against `0.25` fails, exactly `0.25` passes), and the
diagram's fail/highlight decision is exactly its negation `|value| > tol`. -/
theorem pass_boundary_inclusive :
    (∀ value tol : ℚ,
      (surveyMagPass value tol = true ↔ |value| ≤ tol) ∧
      crossLevelFail value tol = !surveyMagPass value tol) ∧
    surveyMagPass 0.30 0.25 = false ∧
    surveyMagPass 0.25 0.25 = true := by
  refine ⟨fun value tol => ⟨?_, ?_⟩, by with_unfolding_all decide, by with_unfolding_all decide⟩
  · simp [surveyMagPass]
  · simp [surveyMagPass, crossLevelFail, ← decide_not, not_le]

/-! ### C4 — zoned tolerance resolution -/

/-- C4 counterexample: at position `150`, outside both zones of
`[(0,50,0.25),(50,100,0.5)]`, the two resolution paths do NOT return the
same fallback: `tolAt` returns its caller-supplied `fallbackTol` (`0.25`
here) while `tolAtStation` returns the last zone's tolerance (`0.5`). -/
theorem tol_fallback_paths_differ :
    tolAt 150 (some [⟨0, 50, 0.25⟩, ⟨50, 100, 0.5⟩]) 0.25 = 0.25 ∧
    tolAtStation (.zoned [⟨0, 50, 0.25⟩, ⟨50, 100, 0.5⟩]) 150 = 0.5 ∧
    tolAt 150 (some [⟨0, 50, 0.25⟩, ⟨50, 100, 0.5⟩]) 0.25 ≠
      tolAtStation (.zoned [⟨0, 50, 0.25⟩, ⟨50, 100, 0.5⟩]) 150 := by
  refine ⟨by with_unfolding_all decide, by with_unfolding_all decide, by with_unfolding_all decide⟩

/-- C4 amended: both `tolAt` and `tolAtStation` return the tolerance of the
first zone in input order containing the position inclusively at both
endpoints; on no match, however, the fallbacks differ per path: `tolAt`
returns its caller-supplied `fallbackTol` and `tolAtStation` returns the
last zone's tolerance (`0` for an empty zone list). -/
theorem tol_resolution_first_match :
    (∀ (ft fb : ℚ) (zs : List Zone),
      tolAt ft none fb = fb ∧
      ((∃ z ∈ zs, zoneContains ft z = true) →
        ∃ l₁ z l₂, zs = l₁ ++ z :: l₂ ∧ zoneContains ft z = true ∧
          (∀ w ∈ l₁, zoneContains ft w = false) ∧
          tolAt ft (some zs) fb = z.tolIn ∧
          tolAtStation (.zoned zs) ft = z.tolIn) ∧
      ((∀ z ∈ zs, zoneContains ft z = false) →
        tolAt ft (some zs) fb = fb ∧
        tolAtStation (.zoned zs) ft = ((zs.getLast?).map Zone.tolIn).getD 0)) ∧
    tolAt 25 (some [⟨0, 50, 0.25⟩, ⟨50, 100, 0.5⟩]) 0.25 = 0.25 ∧
    tolAt 75 (some [⟨0, 50, 0.25⟩, ⟨50, 100, 0.5⟩]) 0.25 = 0.5 ∧
    tolAtStation (.zoned [⟨0, 50, 0.25⟩, ⟨50, 100, 0.5⟩]) 25 = 0.25 ∧
    tolAtStation (.zoned [⟨0, 50, 0.25⟩, ⟨50, 100, 0.5⟩]) 75 = 0.5 := by
  refine ⟨fun ft fb zs => ⟨rfl, ?_, ?_⟩, by with_unfolding_all decide, by with_unfolding_all decide, by with_unfolding_all decide, by with_unfolding_all decide⟩
  · intro hex
    cases hfind : zs.find? (zoneContains ft) with
    | none =>
      obtain ⟨z, hz, hzc⟩ := hex
      exact absurd hzc (by simpa using List.find?_eq_none.1 hfind z hz)
    | some z =>
      obtain ⟨l₁, l₂, hsplit, hz, hl₁⟩ := find?_first (zoneContains ft) zs z hfind
      exact ⟨l₁, z, l₂, hsplit, hz, hl₁,
        by simp [tolAt, hfind], by simp [tolAtStation, hfind]⟩
  · intro hall
    have hfind : zs.find? (zoneContains ft) = none :=
      List.find?_eq_none.2 fun z hz => by simp [hall z hz]
    exact ⟨by simp [tolAt, hfind], by simp [tolAtStation, hfind]⟩

/-- Witness for `tol_resolution_first_match` at a concrete no-match
position. -/
theorem tol_resolution_first_match_witness :
    tolAt 150 (some [⟨0, 50, 0.25⟩, ⟨50, 100, 0.5⟩]) 0.25 = 0.25 ∧
    tolAtStation (.zoned [⟨0, 50, 0.25⟩, ⟨50, 100, 0.5⟩]) 150 = 0.5 := by
  have h := (tol_resolution_first_match.1 150 0.25
    [⟨0, 50, 0.25⟩, ⟨50, 100, 0.5⟩]).2.2 (by with_unfolding_all decide)
  exact ⟨h.1, h.2.trans (by with_unfolding_all decide)⟩

/-! ### C7 — chart Y half-range -/

/-- C7 counterexample: with a small but nonzero series (`railN = railS =
[0.1]`) and tolerance `0.2`, the half-range is `0.25`, strictly below the
claimed floor of `1.0`; `x || 1` in JavaScript only substitutes `1` when
`x` is zero. -/
theorem yRange_below_one :
    straightnessYAbsMax [0.1] [0.1] 0.2 = 0.25 ∧
    straightnessYAbsMax [0.1] [0.1] 0.2 < 1 := by
  refine ⟨by with_unfolding_all decide, by with_unfolding_all decide⟩

/-- C7 amended: the half-range is
`max(maxAbsDeviationAcrossChannels, tol) * 1.25` whenever that product is
nonzero (in particular whenever `0 < tol`), and `1` exactly when the
product is zero; `seriesMaxAbs` is the maximum absolute value of the
channel (0 for an empty channel). -/
theorem yRange_floor_only_when_zero :
    ∀ (railN railS : List ℚ) (tol : ℚ),
      (straightnessMaxDev railN railS tol * 1.25 ≠ 0 →
        straightnessYAbsMax railN railS tol =
          max (max (seriesMaxAbs railN) (seriesMaxAbs railS)) tol * 1.25) ∧
      (straightnessMaxDev railN railS tol * 1.25 = 0 →
        straightnessYAbsMax railN railS tol = 1) ∧
      (0 < tol →
        straightnessYAbsMax railN railS tol =
          max (max (seriesMaxAbs railN) (seriesMaxAbs railS)) tol * 1.25) ∧
      (0 ≤ seriesMaxAbs railN ∧ ∀ v ∈ railN, |v| ≤ seriesMaxAbs railN) := by
  intro railN railS tol
  have hmax : ∀ (l : List ℚ) (m : ℚ),
      m ≤ l.foldl (fun m v => max m |v|) m ∧
        ∀ v ∈ l, |v| ≤ l.foldl (fun m v => max m |v|) m := by
    intro l
    induction l with
    | nil => intro m; exact ⟨le_refl m, by simp⟩
    | cons w t ih =>
      intro m
      rw [List.foldl_cons]
      refine ⟨le_trans (le_max_left m |w|) (ih (max m |w|)).1, ?_⟩
      intro v hv
      rcases List.mem_cons.1 hv with rfl | hv
      · exact le_trans (le_max_right m |v|) (ih (max m |v|)).1
      · exact (ih (max m |w|)).2 v hv
  refine ⟨?_, ?_, ?_, (hmax railN 0).1, (hmax railN 0).2⟩
  · intro hne
    simp only [straightnessYAbsMax, straightnessMaxDev] at hne ⊢
    rw [if_neg hne]
  · intro heq
    simp only [straightnessYAbsMax, straightnessMaxDev] at heq ⊢
    rw [if_pos heq]
  · intro htol
    have hpos : 0 < straightnessMaxDev railN railS tol * 1.25 := by
      have h1 : 0 < straightnessMaxDev railN railS tol :=
        lt_of_lt_of_le htol (le_max_right _ tol)
      positivity
    simp only [straightnessYAbsMax, straightnessMaxDev] at hpos ⊢
    rw [if_neg (ne_of_gt hpos)]

/-- Witness for `yRange_floor_only_when_zero` at concrete inputs: a nonzero
product keeps the `* 1.25` formula, an all-zero input floors to `1`. -/
theorem yRange_floor_only_when_zero_witness :
    straightnessYAbsMax [0.1] [0.1] 0.2 =
      max (max (seriesMaxAbs [0.1]) (seriesMaxAbs [0.1])) 0.2 * 1.25 ∧
    straightnessYAbsMax [] [] 0 = 1 :=
  ⟨(yRange_floor_only_when_zero [0.1] [0.1] 0.2).1
      (by
        have h2 : (0.2 : ℚ) ≤ straightnessMaxDev [0.1] [0.1] 0.2 :=
          le_max_right _ _
        nlinarith),
   (yRange_floor_only_when_zero [] [] 0).2.1
      (by norm_num [straightnessMaxDev, seriesMaxAbs, List.foldl])⟩

/-! ### C9 — renderer degenerate-input guards -/

/-- C9 counterexample: the chart renderer (`buildChartSvg`) substitutes a
minimum horizontal span of `1e-6`, not `1`, for a zero-span series: for
stations `[5,5]` the span is `0` and `xSpan` is `1/1000000 ≠ 1`. -/
theorem chart_span_substitute_not_one :
    listMax [(5 : ℚ), 5] - listMin [(5 : ℚ), 5] = 0 ∧
    chartXSpan [(5 : ℚ), 5] = 1 / 1000000 ∧
    chartXSpan [(5 : ℚ), 5] ≠ 1 := by
  have hz : listMax [(5 : ℚ), 5] - listMin [(5 : ℚ), 5] = 0 := by
    norm_num [listMax, listMin, List.foldl]
  have hspan : chartXSpan [(5 : ℚ), 5] = 1 / 1000000 := by
    rw [chartXSpan, hz]
    exact max_eq_left (by norm_num)
  exact ⟨hz, hspan, by rw [hspan]; norm_num⟩

/-- C9 amended: the renderers are total over degenerate inputs — an empty
point series or an absent beam channel yields the placeholder SVG document
wrapping an explanatory message; for a zero-span series the cross-level
diagram substitutes a minimum horizontal span of `1` while the chart
renderer substitutes `1e-6`; both substitutes are positive, so neither
horizontal scale divides by zero. -/
theorem renderers_degenerate_guards :
    (∀ tol : ℚ, buildCrossLevelDiagramSvgString tol [] =
      .placeholder (emptySvg "No cross-level data available.")) ∧
    (∀ msg : String, ∃ pre post : String, emptySvg msg = pre ++ escHtml msg ++ post) ∧
    (∀ (tol : ℚ) (pts : List CrossPt), pts ≠ [] →
      ∃ g, buildCrossLevelDiagramSvgString tol pts = .rendered g ∧
        g.spanFt = max 1 (listMax (pts.map CrossPt.stationFt) -
          listMin (pts.map CrossPt.stationFt)) ∧ 1 ≤ g.spanFt) ∧
    (∀ zones, buildEccentricityChart none zones =
      .placeholder (emptySvg "No survey data.")) ∧
    (∀ (d : SurveyArrays) (zones : Option (List Zone)), (∀ b ∈ d.beamN, b = none) →
      buildEccentricityChart (some d) zones =
        .placeholder (emptySvg
          "Eccentricity requires BeamN/BeamS. Provide BeamN & BeamS columns in CSV.")) ∧
    (∀ stationFt : List ℚ, 0 < chartXSpan stationFt ∧
      (listMax stationFt - listMin stationFt = 0 →
        chartXSpan stationFt = 1 / 1000000)) := by
  refine ⟨fun tol => rfl, fun msg => ⟨_, _, rfl⟩, ?_, fun zones => rfl, ?_, ?_⟩
  · intro tol pts hne
    cases pts with
    | nil => exact absurd rfl hne
    | cons p ps => exact ⟨_, rfl, rfl, le_max_left 1 _⟩
  · intro d zones hb
    have hany : (d.beamN.any fun v => v.isSome) = false := by
      rw [List.any_eq_false]
      intro v hv
      rw [hb v hv]
      simp
    simp only [buildEccentricityChart, hany]
    rw [if_pos trivial]
  · intro stationFt
    constructor
    · exact lt_of_lt_of_le (by norm_num) (le_max_left (1 / 1000000) _)
    · intro hz
      rw [chartXSpan, hz]
      exact max_eq_left (by norm_num)

/-! ### C3 — non-positive grid parameters -/

theorem stationLoopOffset_nonpos (s : ℚ) (hs : s ≤ 0) :
    ∀ n, stationLoopOffset s n ≤ 0 := by
  intro n
  induction n with
  | zero => exact le_refl 0
  | succ n ih => exact add_nonpos ih hs

/-- C3 counterexample: with positive length `1` and spacing `0` the
`stationOffsets` loop never exits (the loop variable stays `0 < 1`
forever), so the grid builder does NOT terminate with an empty list for
non-positive spacing — the protection lives in the callers' guards. -/
theorem stationOffsets_zero_spacing_loop_never_exits :
    ¬ stationLoopExits 1 0 := by
  rintro ⟨n, hn⟩
  exact hn (lt_of_le_of_lt (stationLoopOffset_nonpos 0 le_rfl n) one_pos)

/-- C3 amended: for `lengthFt ≤ 0` the grid builder returns an empty
sequence (the loop exits at once); for `spacingFt ≤ 0` with positive length
the builder's loop never exits, and instead both callers guard: `buildLayout`
and `buildSurveyStations` signal a configuration error and return before
ever reaching the loop. -/
theorem stationOffsets_guards :
    ∀ d s c : ℚ,
      (d ≤ 0 → stationOffsets d s = [] ∧ stationLoopExits d s) ∧
      (s ≤ 0 → 0 < d → ¬ stationLoopExits d s) ∧
      (s ≤ 0 → buildLayoutCheck c s =
        .error "Columns per side must be 2+ and measured station distance must be greater than 0.") ∧
      (s ≤ 0 → buildSurveyStationsCheck d s =
        .error "Enter a valid runway length and station spacing.") ∧
      (d ≤ 0 → buildSurveyStationsCheck d s =
        .error "Enter a valid runway length and station spacing.") := by
  intro d s c
  refine ⟨fun hd => ⟨?_, ⟨0, not_lt.2 hd⟩⟩, fun hs hd => ?_, fun hs => ?_,
    fun hs => ?_, fun hd => ?_⟩
  · rw [stationOffsets, stationOffsetsAux, if_neg (not_lt.2 hd)]
  · rintro ⟨n, hn⟩
    exact hn (lt_of_le_of_lt (stationLoopOffset_nonpos s hs n) hd)
  · rw [buildLayoutCheck, if_pos (Or.inr hs)]
  · rw [buildSurveyStationsCheck, if_pos (Or.inr hs)]
  · rw [buildSurveyStationsCheck, if_pos (Or.inl hd)]

/-- Witness for `stationOffsets_guards` at concrete inputs. -/
theorem stationOffsets_guards_witness :
    stationOffsets (-1) 5 = [] ∧
    ¬ stationLoopExits 2 (-3) ∧
    buildLayoutCheck 3 0 =
      .error "Columns per side must be 2+ and measured station distance must be greater than 0." ∧
    buildSurveyStationsCheck 2 (-3) =
      .error "Enter a valid runway length and station spacing." :=
  ⟨((stationOffsets_guards (-1) 5 3).1 (by norm_num)).1,
   (stationOffsets_guards 2 (-3) 3).2.1 (by norm_num) (by norm_num),
   (stationOffsets_guards 2 0 3).2.2.1 (by norm_num),
   (stationOffsets_guards 2 (-3) 3).2.2.2.1 (by norm_num)⟩

/-- Witness for `renderers_degenerate_guards` at concrete inputs. -/
theorem renderers_degenerate_guards_witness :
    (∃ g, buildCrossLevelDiagramSvgString 0.375 [⟨5, 0.1⟩] = .rendered g ∧
      g.spanFt = max 1 (listMax (([⟨5, 0.1⟩] : List CrossPt).map CrossPt.stationFt) -
        listMin (([⟨5, 0.1⟩] : List CrossPt).map CrossPt.stationFt)) ∧
      1 ≤ g.spanFt) ∧
    buildEccentricityChart
        (some ⟨[0, 10], [0, 0], [0, 0], [none, none], [none, none]⟩) none =
      .placeholder (emptySvg
        "Eccentricity requires BeamN/BeamS. Provide BeamN & BeamS columns in CSV.") :=
  ⟨renderers_degenerate_guards.2.2.1 0.375 [⟨5, 0.1⟩] (by simp),
   renderers_degenerate_guards.2.2.2.2.1
     ⟨[0, 10], [0, 0], [0, 0], [none, none], [none, none]⟩ none (by simp)⟩

/-! ### C6 — half-open vs closed grid boundaries -/

/-- With positive spacing and enough fuel, the loop unfolding of
`stationOffsets` contains exactly the arithmetic progression from `offset`
that stays below `designDistanceFt`. -/
theorem stationOffsetsAux_mem (d s : ℚ) (hs : 0 < s) :
    ∀ (fuel : ℕ) (offset x : ℚ), (d - offset) / s ≤ fuel →
      (x ∈ stationOffsetsAux d s offset fuel ↔
        ∃ k : ℕ, x = offset + k * s ∧ x < d) := by
  intro fuel
  induction fuel with
  | zero =>
    intro offset x hf
    simp only [stationOffsetsAux, List.not_mem_nil, false_iff]
    rintro ⟨k, rfl, hxd⟩
    have hdo : d - offset ≤ 0 := by
      by_contra hpos
      have : 0 < (d - offset) / s := div_pos (lt_of_not_le hpos) hs
      simp only [Nat.cast_zero] at hf
      linarith
    have hks : 0 ≤ (k : ℚ) * s := mul_nonneg (Nat.cast_nonneg k) hs.le
    linarith
  | succ n ih =>
    intro offset x hf
    rw [stationOffsetsAux]
    by_cases hlt : offset < d
    · rw [if_pos hlt]
      have hdiv : (d - (offset + s)) / s = (d - offset) / s - 1 := by
        field_simp
        ring
      have hf' : (d - (offset + s)) / s ≤ n := by
        rw [hdiv]
        push_cast at hf ⊢
        linarith
      rw [List.mem_cons, ih (offset + s) x hf']
      constructor
      · rintro (rfl | ⟨k, rfl, hxd⟩)
        · exact ⟨0, by push_cast; ring, hlt⟩
        · exact ⟨k + 1, by push_cast; ring, hxd⟩
      · rintro ⟨k, rfl, hxd⟩
        cases k with
        | zero => left; push_cast; ring
        | succ k' => right; exact ⟨k', by push_cast; ring, hxd⟩
    · rw [if_neg hlt]
      simp only [List.not_mem_nil, false_iff]
      rintro ⟨k, rfl, hxd⟩
      have hdo : d ≤ offset := not_lt.1 hlt
      have hks : 0 ≤ (k : ℚ) * s := mul_nonneg (Nat.cast_nonneg k) hs.le
      linarith

/-- C6 core for `stationOffsets`: half-open membership. -/
theorem stationOffsets_mem (d s : ℚ) (hs : 0 < s) (x : ℚ) :
    x ∈ stationOffsets d s ↔ ∃ k : ℕ, x = k * s ∧ x < d := by
  have hceil : d / s ≤ ((⌈d / s⌉.toNat + 1 : ℕ) : ℚ) := by
    have h1 : d / s ≤ (⌈d / s⌉ : ℚ) := Int.le_ceil _
    have h2 : ((⌈d / s⌉ : ℤ) : ℚ) ≤ ((⌈d / s⌉.toNat : ℤ) : ℚ) := by
      exact_mod_cast Int.self_le_toNat _
    push_cast at h2 ⊢
    linarith
  rw [stationOffsets,
    stationOffsetsAux_mem d s hs _ 0 x (by simpa using hceil)]
  simp only [zero_add]

/-- With positive spacing and enough fuel, the loop unfolding of
`buildSurveyStations` contains exactly the rounded images of the
arithmetic progression from `ft` that stays at or below the
epsilon-extended end `startFt + lenFt + 1e-9`. -/
theorem surveyStationsAux_mem (start len step : ℚ) (hs : 0 < step) :
    ∀ (fuel : ℕ) (ft x : ℚ),
      (start + len + 1 / 1000000000 - ft) / step + 1 ≤ fuel →
      (x ∈ surveyStationsAux start len step ft fuel ↔
        ∃ k : ℕ, x = surveyRound3 (ft + k * step) ∧
          ft + k * step ≤ start + len + 1 / 1000000000) := by
  intro fuel
  induction fuel with
  | zero =>
    intro ft x hf
    simp only [surveyStationsAux, List.not_mem_nil, false_iff]
    rintro ⟨k, rfl, hxd⟩
    have hB : start + len + 1 / 1000000000 - ft < 0 := by
      by_contra hpos
      have : 0 ≤ (start + len + 1 / 1000000000 - ft) / step :=
        div_nonneg (not_lt.1 hpos) hs.le
      simp only [Nat.cast_zero] at hf
      linarith
    have hks : 0 ≤ (k : ℚ) * step := mul_nonneg (Nat.cast_nonneg k) hs.le
    linarith
  | succ n ih =>
    intro ft x hf
    rw [surveyStationsAux]
    by_cases hle : ft ≤ start + len + 1 / 1000000000
    · rw [if_pos hle]
      have hdiv : (start + len + 1 / 1000000000 - (ft + step)) / step =
          (start + len + 1 / 1000000000 - ft) / step - 1 := by
        field_simp
        ring
      have hf' : (start + len + 1 / 1000000000 - (ft + step)) / step + 1 ≤ n := by
        rw [hdiv]
        push_cast at hf ⊢
        linarith
      rw [List.mem_cons, ih (ft + step) x hf']
      constructor
      · rintro (rfl | ⟨k, rfl, hxd⟩)
        · exact ⟨0, by push_cast; ring_nf, by push_cast; linarith⟩
        · refine ⟨k + 1, by push_cast; ring_nf, by push_cast at hxd ⊢; linarith⟩
      · rintro ⟨k, rfl, hxd⟩
        cases k with
        | zero => left; push_cast; ring_nf
        | succ k' =>
          right
          refine ⟨k', by push_cast; ring_nf, by push_cast at hxd ⊢; linarith⟩
    · rw [if_neg hle]
      simp only [List.not_mem_nil, false_iff]
      rintro ⟨k, rfl, hxd⟩
      have hB : start + len + 1 / 1000000000 < ft := not_le.1 hle
      have hks : 0 ≤ (k : ℚ) * step := mul_nonneg (Nat.cast_nonneg k) hs.le
      linarith

/-- C6 core for `buildSurveyStations`: when the length is an exact multiple
of the spacing the end-of-span station is included (closed
less-than-or-equal-with-epsilon semantics). -/
theorem surveyStations_end_mem (start len step : ℚ) (hs : 0 < step)
    (k : ℕ) (hlen : len = k * step) :
    surveyRound3 (start + len) ∈ surveyStations start len step := by
  have hfuel : (start + len + 1 / 1000000000 - start) / step + 1 ≤
      ((⌈(len + 1) / step⌉.toNat + 2 : ℕ) : ℚ) := by
    have h1 : (len + 1) / step ≤ (⌈(len + 1) / step⌉ : ℚ) := Int.le_ceil _
    have h2 : ((⌈(len + 1) / step⌉ : ℤ) : ℚ) ≤
        ((⌈(len + 1) / step⌉.toNat : ℤ) : ℚ) := by
      exact_mod_cast Int.self_le_toNat _
    have h3 : (start + len + 1 / 1000000000 - start) / step ≤ (len + 1) / step :=
      (div_le_div_iff_of_pos_right hs).mpr (by linarith)
    push_cast at h2 ⊢
    linarith [h3]
  rw [surveyStations, surveyStationsAux_mem start len step hs _ start _ hfuel]
  exact ⟨k, by rw [hlen], by rw [← hlen]; linarith⟩

/-- C6: `stationOffsets` uses half-open semantics — its members are exactly
the multiples of the spacing strictly below the design length, so
`stationOffsets 60 10 = [0,…,50]` excludes the end station — while the
survey station table uses closed-with-epsilon semantics and includes the
end station, `surveyStations 0 60 10 = [0,…,60]`. -/
theorem station_grid_boundaries :
    (∀ d s : ℚ, 0 < s → ∀ x : ℚ,
      (x ∈ stationOffsets d s ↔ ∃ k : ℕ, x = k * s ∧ x < d)) ∧
    stationOffsets 60 10 = [0, 10, 20, 30, 40, 50] ∧
    (∀ start len step : ℚ, 0 < step → ∀ k : ℕ, len = k * step →
      surveyRound3 (start + len) ∈ surveyStations start len step) ∧
    surveyStations 0 60 10 = [0, 10, 20, 30, 40, 50, 60] := by
  refine ⟨fun d s hs x => stationOffsets_mem d s hs x,
    by with_unfolding_all decide,
    fun start len step hs k hlen => surveyStations_end_mem start len step hs k hlen,
    by with_unfolding_all decide⟩

/-- Witness for `station_grid_boundaries` at concrete inputs. -/
theorem station_grid_boundaries_witness :
    ((30 : ℚ) ∈ stationOffsets 60 10 ↔ ∃ k : ℕ, (30 : ℚ) = k * 10 ∧ (30 : ℚ) < 60) ∧
    surveyRound3 (0 + 60) ∈ surveyStations 0 60 10 :=
  ⟨station_grid_boundaries.1 60 10 (by norm_num) 30,
   station_grid_boundaries.2.2.1 0 60 10 (by norm_num) 6 (by norm_num)⟩

/-! ### C8 — CSV import filtering, sorting and the too-few-rows guard -/

/-- C8: a row survives the import exactly when its station and both
required rail cells parsed; with fewer than 2 surviving rows the import
throws (the engine receives no series); otherwise the engine receives
exactly the valid rows, reordered ascending by station. -/
theorem survey_import_guard :
    ∀ (hasBeamN hasBeamS : Bool) (rows : List SurveyRawRow),
      (∀ r ∈ rows, (surveyValidRow hasBeamN hasBeamS r).isSome =
        (r.stationFt.isSome && r.railN.isSome && r.railS.isSome)) ∧
      ((surveyValidRows hasBeamN hasBeamS rows).length < 2 →
        parseSurveyDataFromTextarea hasBeamN hasBeamS rows =
          .error "Not enough valid rows parsed. Need at least 2 stations.") ∧
      (2 ≤ (surveyValidRows hasBeamN hasBeamS rows).length →
        ∃ out, parseSurveyDataFromTextarea hasBeamN hasBeamS rows = .ok out ∧
          out.rows.Perm (surveyValidRows hasBeamN hasBeamS rows) ∧
          (out.rows.map SurveyValidRow.stationFt).Sorted (· ≤ ·) ∧
          out.hasBeam = (hasBeamN && hasBeamS)) := by
  intro hasBeamN hasBeamS rows
  refine ⟨?_, ?_, ?_⟩
  · intro r hr
    rcases r with ⟨st, rn, rs, bn, bs⟩
    cases st <;> cases rn <;> cases rs <;> simp [surveyValidRow]
  · intro h
    rw [parseSurveyDataFromTextarea]
    simp only [if_pos h]
  · intro h
    have hn : ¬ (surveyValidRows hasBeamN hasBeamS rows).length < 2 := not_lt.2 h
    refine ⟨⟨List.insertionSort surveyRowLE (surveyValidRows hasBeamN hasBeamS rows),
      hasBeamN && hasBeamS⟩, ?_, ?_, ?_, rfl⟩
    · rw [parseSurveyDataFromTextarea]
      simp only [if_neg hn]
    · exact List.perm_insertionSort surveyRowLE _
    · have hsorted : (List.insertionSort surveyRowLE
          (surveyValidRows hasBeamN hasBeamS rows)).Sorted surveyRowLE :=
        List.sorted_insertionSort surveyRowLE _
      exact List.Pairwise.map SurveyValidRow.stationFt (fun a b hab => hab) hsorted

/-- Witness for `survey_import_guard`: a mix of one parsing and one
non-parsing row triggers the too-few-rows error. -/
theorem survey_import_guard_witness :
    parseSurveyDataFromTextarea false false
      [⟨some 0, some 1, some 2, none, none⟩, ⟨none, some 1, some 1, none, none⟩] =
      .error "Not enough valid rows parsed. Need at least 2 stations." :=
  (survey_import_guard false false
      [⟨some 0, some 1, some 2, none, none⟩, ⟨none, some 1, some 1, none, none⟩]).2.1
    (by with_unfolding_all decide)

/-! ### C1/C10 — rate-of-change neighbor selection and invariants -/

/-- The inner scan of `rateOfChangePer20ft` maintains `BestInv`: after `m`
candidates the state holds the first-encountered valid candidate with
minimal `diffTo20`, or nothing when no candidate was valid. -/
theorem bestNeighbor_inv (s : List ℚ) (i : ℕ) :
    ∀ m, BestInv s i m (bestNeighbor s m i) := by
  intro m
  induction m with
  | zero =>
    show ∀ j, j < 0 → ¬ validNeighbor s i j
    intro j hj
    exact absurd hj (Nat.not_lt_zero j)
  | succ m ih =>
    have hstep : bestNeighbor s (m + 1) i = bestStep s i (bestNeighbor s m i) m := by
      rw [bestNeighbor, bestNeighbor, List.range_succ, List.foldl_append,
        List.foldl_cons, List.foldl_nil]
    rw [hstep]
    rcases h : bestNeighbor s m i with _ | ⟨b, d⟩ <;> rw [h] at ih
    · by_cases him : m = i
      · unfold bestStep
        rw [if_pos him]
        show ∀ j, j < m + 1 → ¬ validNeighbor s i j
        intro j hj hv
        rcases Nat.lt_succ_iff_lt_or_eq.1 hj with hj | rfl
        · exact ih j hj hv
        · exact hv.1 him
      · by_cases hsep : sepFt s i m ≤ 0
        · unfold bestStep
          rw [if_neg him, if_pos hsep]
          show ∀ j, j < m + 1 → ¬ validNeighbor s i j
          intro j hj hv
          rcases Nat.lt_succ_iff_lt_or_eq.1 hj with hj | rfl
          · exact ih j hj hv
          · exact absurd hv.2 (not_lt.2 hsep)
        · have hvm : validNeighbor s i m := ⟨him, not_le.1 hsep⟩
          unfold bestStep
          rw [if_neg him, if_neg hsep]
          refine ⟨Nat.lt_succ_self m, hvm, rfl, ?_, ?_⟩
          · intro j hj hv
            rcases Nat.lt_succ_iff_lt_or_eq.1 hj with hj | rfl
            · exact absurd hv (ih j hj)
            · exact le_refl _
          · intro j hj hv
            exact absurd hv (ih j hj)
    · obtain ⟨hbm, hvb, hd, hmin, hstrict⟩ := ih
      by_cases him : m = i
      · unfold bestStep
        rw [if_pos him]
        refine ⟨Nat.lt_succ_of_lt hbm, hvb, hd, ?_, hstrict⟩
        intro j hj hv
        rcases Nat.lt_succ_iff_lt_or_eq.1 hj with hj | rfl
        · exact hmin j hj hv
        · exact absurd him hv.1
      · by_cases hsep : sepFt s i m ≤ 0
        · unfold bestStep
          rw [if_neg him, if_pos hsep]
          refine ⟨Nat.lt_succ_of_lt hbm, hvb, hd, ?_, hstrict⟩
          intro j hj hv
          rcases Nat.lt_succ_iff_lt_or_eq.1 hj with hj | rfl
          · exact hmin j hj hv
          · exact absurd hv.2 (not_lt.2 hsep)
        · have hvm : validNeighbor s i m := ⟨him, not_le.1 hsep⟩
          unfold bestStep
          rw [if_neg him, if_neg hsep]
          show BestInv s i (m + 1)
            (if diffTo20 s i m < d then some (m, diffTo20 s i m) else some (b, d))
          by_cases hlt : diffTo20 s i m < d
          · rw [if_pos hlt]
            rw [hd] at hlt
            refine ⟨Nat.lt_succ_self m, hvm, rfl, ?_, ?_⟩
            · intro j hj hv
              rcases Nat.lt_succ_iff_lt_or_eq.1 hj with hj | rfl
              · exact le_of_lt (lt_of_lt_of_le hlt (hmin j hj hv))
              · exact le_refl _
            · intro j hj hv
              exact lt_of_lt_of_le hlt (hmin j hj hv)
          · rw [if_neg hlt]
            rw [hd] at hlt
            refine ⟨Nat.lt_succ_of_lt hbm, hvb, hd, ?_, hstrict⟩
            intro j hj hv
            rcases Nat.lt_succ_iff_lt_or_eq.1 hj with hj | rfl
            · exact hmin j hj hv
            · exact not_lt.1 hlt

/-- The scan reports no neighbor exactly when no candidate is valid. -/
theorem bestNeighbor_none_iff (s : List ℚ) (n i : ℕ) :
    bestNeighbor s n i = none ↔ ∀ j, j < n → ¬ validNeighbor s i j := by
  constructor
  · intro h
    have hinv := bestNeighbor_inv s i n
    rw [h] at hinv
    exact hinv
  · intro h
    rcases heq : bestNeighbor s n i with _ | ⟨b, d⟩
    · rfl
    · have hinv := bestNeighbor_inv s i n
      rw [heq] at hinv
      exact absurd hinv.2.1 (h b hinv.1)

/-- Entry `i` of the rate array, expressed through the scan result. -/
theorem rate_getD (s y : List ℚ) (i : ℕ) (h : i < y.length) :
    (rateOfChangePer20ft s y).getD i 0 =
      match bestNeighbor s y.length i with
      | none => 0
      | some (bJ, _) =>
        |seriesGet y i - seriesGet y bJ| * (20 / sepFt s i bJ) := by
  rw [rateOfChangePer20ft, List.getD_eq_getElem?_getD, List.getElem?_map,
    List.getElem?_range h]
  rfl

/-- C1: entry `i` of `rateOfChangePer20ft` is `0` when no other point sits
at nonzero separation from point `i`; otherwise it equals
`|y[i] - y[j]| * (20 / |s[i] - s[j]|)` for the valid neighbor `j` that
minimizes `|dx - 20|`, ties broken by the first-encountered index. -/
theorem rate_selects_first_nearest_to_20ft :
    ∀ (stationFt y : List ℚ) (i : ℕ), i < y.length →
      stationFt.length = y.length →
      ((∀ j, j < y.length → ¬ validNeighbor stationFt i j) →
        (rateOfChangePer20ft stationFt y).getD i 0 = 0) ∧
      (∀ j, j < y.length → validNeighbor stationFt i j →
        (∀ j', j' < y.length → validNeighbor stationFt i j' →
          diffTo20 stationFt i j ≤ diffTo20 stationFt i j') →
        (∀ j', j' < j → validNeighbor stationFt i j' →
          diffTo20 stationFt i j < diffTo20 stationFt i j') →
        (rateOfChangePer20ft stationFt y).getD i 0 =
          |seriesGet y i - seriesGet y j| * (20 / sepFt stationFt i j)) := by
  intro s y i hi _hlen
  constructor
  · intro hnone
    rw [rate_getD s y i hi, (bestNeighbor_none_iff s y.length i).2 hnone]
  · intro j hj hvj hminj hstrictj
    rcases heq : bestNeighbor s y.length i with _ | ⟨b, d⟩
    · exact absurd hvj ((bestNeighbor_none_iff s y.length i).1 heq j hj)
    · have hinv := bestNeighbor_inv s i y.length
      rw [heq] at hinv
      obtain ⟨hbn, hvb, hd, hminb, hstrictb⟩ := hinv
      have hbj : b = j := by
        rcases lt_trichotomy b j with hlt | heqbj | hgt
        · exact absurd (hstrictj b hlt hvb) (not_lt.2 (hminb j hj hvj))
        · exact heqbj
        · exact absurd (hstrictb j hgt hvj) (not_lt.2 (hminj b hbn hvb))
      rw [rate_getD s y i hi, heq, hbj]

/-- Witness for `rate_selects_first_nearest_to_20ft`: positions
`[0,10,20]`, values `[0,0,0.3]`, point `i = 2` selects `j = 0` (separation
exactly 20 ft). -/
theorem rate_selects_first_nearest_to_20ft_witness :
    (rateOfChangePer20ft [0, 10, 20] [0, 0, 0.3]).getD 2 0 =
      |seriesGet [0, 0, 0.3] 2 - seriesGet [0, 0, 0.3] 0| *
        (20 / sepFt [0, 10, 20] 2 0) :=
  (rate_selects_first_nearest_to_20ft [0, 10, 20] [0, 0, 0.3] 2
      (by norm_num) rfl).2 0 (by norm_num)
    (by with_unfolding_all decide)
    (by with_unfolding_all decide)
    (by with_unfolding_all decide)

/-- C10: on parallel arrays the rate array has the input length, every
entry is non-negative, and entry `i` is `0` whenever every other point
shares point `i`'s station. -/
theorem rate_length_nonneg_zero :
    ∀ (stationFt y : List ℚ), stationFt.length = y.length →
      (rateOfChangePer20ft stationFt y).length = y.length ∧
      (∀ x ∈ rateOfChangePer20ft stationFt y, 0 ≤ x) ∧
      (∀ i, i < y.length →
        (∀ j, j < y.length → j ≠ i →
          seriesGet stationFt j = seriesGet stationFt i) →
        (rateOfChangePer20ft stationFt y).getD i 0 = 0) := by
  intro s y _hlen
  refine ⟨by simp [rateOfChangePer20ft], ?_, ?_⟩
  · intro x hx
    rw [rateOfChangePer20ft] at hx
    obtain ⟨i, _hi, rfl⟩ := List.mem_map.1 hx
    rcases hb : bestNeighbor s y.length i with _ | ⟨b, d⟩
    · exact le_refl 0
    · exact mul_nonneg (abs_nonneg _)
        (div_nonneg (by norm_num) (abs_nonneg _))
  · intro i hi hsame
    have hnone : bestNeighbor s y.length i = none := by
      refine (bestNeighbor_none_iff s y.length i).2 ?_
      rintro j hj ⟨hji, hsep⟩
      rw [sepFt, hsame j hj hji, sub_self, abs_zero] at hsep
      exact lt_irrefl 0 hsep
    rw [rate_getD s y i hi, hnone]

/-- Witness for `rate_length_nonneg_zero`: duplicated stations `[5,5]`
yield rate `0` at the first point, over an array of the input length. -/
theorem rate_length_nonneg_zero_witness :
    (rateOfChangePer20ft [5, 5] [1, 2]).length = 2 ∧
    (rateOfChangePer20ft [5, 5] [1, 2]).getD 0 0 = 0 :=
  ⟨(rate_length_nonneg_zero [5, 5] [1, 2] rfl).1,
   (rate_length_nonneg_zero [5, 5] [1, 2] rfl).2.2 0 (by norm_num)
     (by with_unfolding_all decide)⟩

end TR13
